import Mathlib

/-!
Formal model of `dbflib` (src/lib/dbflib.hpp): a builder and a reader for a
"dynamically linked binary file" container.  Buffers are modelled as lists of
byte values (`List Nat`, each entry a value modulo 256); multi-byte header
fields are little-endian, matching the x86-64 reference platform the library
assumes (shared byte order and pointer width between producer and consumer).
-/

set_option maxRecDepth 20000

namespace DBF

/-- `DB_FILE_MAGIC` (dbflib.hpp line 13). -/
def MAGIC : Nat := 0x0d0a46424424

/-- `DB_FILE_MIN_VERSION` (line 15). -/
def MIN_VERSION : Nat := 0x10

/-- `DB_FILE_CURR_VERSION` (line 17). -/
def CURR_VERSION : Nat := 0x10

/-- `DB_FILE_VERSION_FEATURE::LINKING` (line 22). -/
def LINKING : Nat := 0x10

/-- `INT32_MAX`, the builder growth cap used at lines 83, 103, 172. -/
def INT32MAX : Nat := 2147483647

/-- `sizeof(DBFileBuilder)` on the reference LP64/libstdc++ platform:
`bool` (1 byte, padded to 8) + `std::vector<uint8_t>` (24) +
`std::unordered_map` (56) + `std::vector<DB_FILE_LINK>` (24) = 112 bytes.
The constructor (line 69) resizes the working buffer to this many bytes. -/
def BUILDER_SIZE : Nat := 112

/-- Write one byte: `b[i] = v` with `v` truncated to a byte (uint8 store).
Out-of-range `i` leaves the list unchanged (a real out-of-bounds store is
undefined behaviour in the C++; no modelled execution performs one). -/
def setB (b : List Nat) (i v : Nat) : List Nat := b.set i (v % 256)

/-- Write `n` bytes of `v` little-endian starting at index `i`
(models a `uint16_t`/`uint32_t`/`uint64_t`/pointer store into the buffer). -/
def wLE : Nat → List Nat → Nat → Nat → List Nat
  | 0, b, _, _ => b
  | n + 1, b, i, v => wLE n (setB b i v) (i + 1) (v / 256)

/-- Read `n` bytes little-endian starting at index `i`
(models a `uint16_t`/`uint32_t`/`uint64_t` load from the buffer). -/
def rLE : Nat → List Nat → Nat → Nat
  | 0, _, _ => 0
  | n + 1, b, i => b.getD i 0 + 256 * rLE n b (i + 1)

/-- The `n` little-endian bytes of value `v` (serialization of an integer
field appended to the buffer). -/
def leBytes : Nat → Nat → List Nat
  | 0, _ => []
  | n + 1, v => v % 256 :: leBytes n (v / 256)

/-- Serialization of one `DB_FILE_LINK` record (line 44): `origin` then
`destination`, each a 4-byte little-endian `uint32_t`. -/
def serLink (l : Nat × Nat) : List Nat := leBytes 4 l.1 ++ leBytes 4 l.2

/-- Serialization of the builder's link vector, in order (the byte image
inserted by `Build`, line 175). -/
def table : List (Nat × Nat) → List Nat
  | [] => []
  | l :: ls => serLink l ++ table ls

/-- The header fields of a `DB_FILE` (line 29), as read from a byte buffer.
Offsets follow the C++ struct layout: magic 0, version 8, flags 9,
links_count 10 (uint16), links_table_offset 12, start_offset 16,
data_size 20, file_size 24. -/
structure DBFILE where
  magic : Nat
  version : Nat
  flags : Nat
  links_count : Nat
  links_table_offset : Nat
  start_offset : Nat
  data_size : Nat
  file_size : Nat
  deriving DecidableEq, Repr

/-- Read the `DB_FILE` header fields out of a byte buffer. -/
def readHeader (b : List Nat) : DBFILE :=
  { magic := rLE 8 b 0
    version := b.getD 8 0
    flags := b.getD 9 0
    links_count := rLE 2 b 10
    links_table_offset := rLE 4 b 12
    start_offset := rLE 4 b 16
    data_size := rLE 4 b 20
    file_size := rLE 4 b 24 }

/-- State of a `DBFileBuilder` (line 49): the `linked` flag, the working
byte buffer `data`, the `blocks` id-to-size map (association list; the
`unordered_map` assignment prepends, lookup takes the first match) and the
`links` vector. -/
structure DBFileBuilder where
  linked : Bool
  data : List Nat
  blocks : List (Nat × Nat)
  links : List (Nat × Nat)
  deriving DecidableEq, Repr

/-- Result of a builder operation: `ok` or a thrown `std::runtime_error`.
Both carry the builder state as it is after the call (C++ exceptions leave
the object in its state at the throw point). -/
inductive BRes (α : Type) where
  | ok (st : DBFileBuilder) (val : α)
  | err (st : DBFileBuilder) (msg : String)
  deriving DecidableEq, Repr

/-- The builder state carried by a result. -/
def BRes.state {α : Type} : BRes α → DBFileBuilder
  | .ok st _ => st
  | .err st _ => st

/-- Whether a builder operation succeeded. -/
def BRes.isOk {α : Type} : BRes α → Bool
  | .ok _ _ => true
  | .err _ _ => false

/-- The value returned by a successful builder operation. -/
def BRes.retVal : BRes Nat → Nat
  | .ok _ v => v
  | .err _ _ => 0

/-- `DBFileBuilder::DBFileBuilder()` (line 68): resize the buffer to
`sizeof(DBFileBuilder)` zero bytes, then store that size into the header's
`start_offset` field (offset 16). -/
def newBuilder : DBFileBuilder :=
  { linked := false
    data := wLE 4 (List.replicate BUILDER_SIZE 0) 16 BUILDER_SIZE
    blocks := []
    links := [] }

/-- `GetBlockSize` (line 131): look the id up in the `blocks` map, 0 when
absent. -/
def lookupSize : List (Nat × Nat) → Nat → Nat
  | [], _ => 0
  | (k, v) :: r, id => if id = k then v else lookupSize r id

/-- `DBFileBuilder::GetBlockSize` (line 131). -/
def getBlockSize (st : DBFileBuilder) (id : Nat) : Nat :=
  lookupSize st.blocks id

/-- `DBFileBuilder::AssertNotLinked` (line 59) as compiled without `DEBUG`
defined (the default build): it never throws, and unconditionally resets
`linked` to `false`. -/
def assertNotLinked (st : DBFileBuilder) : DBFileBuilder :=
  { st with linked := false }

/-- `DBFileBuilder::CreateBlock(void*, size_t)` (line 79): append `buf`
to the working buffer, record the size, return the pre-append length as the
block id.  A zero-length request appends and records nothing.  Growing past
`INT32_MAX` throws before any growth. -/
def createBlock (st : DBFileBuilder) (buf : List Nat) : BRes Nat :=
  let st := assertNotLinked st
  let id := st.data.length
  if buf.length ≠ 0 then
    if id + buf.length > INT32MAX then .err st "file too big"
    else .ok { st with
               data := st.data ++ buf
               blocks := (id, buf.length) :: st.blocks } id
  else .ok st id

/-- `DBFileBuilder::CreateBlock<BlockType>(size_t)` (line 99): grow the
buffer by `len` zero bytes (`std::vector::resize` value-initializes) and
return the block id; same cap check as the buffer variant. -/
def createBlockZ (st : DBFileBuilder) (len : Nat) : BRes Nat :=
  let st := assertNotLinked st
  let id := st.data.length
  if len ≠ 0 then
    if id + len > INT32MAX then .err st "file too big"
    else .ok { st with
               data := st.data ++ List.replicate len 0
               blocks := (id, len) :: st.blocks } id
  else .ok st id

/-- `DBFileBuilder::CreateLink` (line 146).  All four parameters are
`uint32_t` at the C++ boundary, so theorems restrict them to values below
`2^32`; `origin + 8` is computed in 32-bit unsigned arithmetic and the
recorded sums are truncated to 32 bits, exactly as the casts at line 155. -/
def createLink (st : DBFileBuilder) (blockOrigin origin blockDestination destination : Nat) :
    BRes Unit :=
  let st := assertNotLinked st
  let ors := getBlockSize st blockOrigin
  let dss := getBlockSize st blockDestination
  if (origin + 8) % 2 ^ 32 > ors ∨ destination > dss then
    .err st "trying to create a link after the end of a block"
  else
    .ok { st with
          links := st.links ++
            [((blockOrigin + origin) % 2 ^ 32, (blockDestination + destination) % 2 ^ 32)] } ()

/-- The header stores performed at the end of `Build` (lines 180-185):
magic at 0, version at 8, links_table_offset at 12, links_count at 10
(a `uint16_t` field, so the count is truncated to 16 bits by `wLE 2`),
data_size at 20, file_size at 24.  `start_offset` (16) is not written here;
it was stored by the constructor. -/
def writeHeader (b : List Nat) (linksOffset count dataSize fileSize : Nat) : List Nat :=
  wLE 4 (wLE 4 (wLE 2 (wLE 4 (setB (wLE 8 b 0 MAGIC) 8 CURR_VERSION)
    12 linksOffset) 10 count) 20 dataSize) 24 fileSize

/-- `DBFileBuilder::Build` (line 162).  When already linked it returns at
once.  Otherwise it sets `linked`, computes `data_size` as the `size_t`
difference `data.size() - start_offset` (wrapping modulo `2^64`, as the
unsigned subtraction does), appends the serialized link table (after the
`INT32_MAX` cap check, which throws with `linked` already set), and fills
in the header fields. -/
def build (st : DBFileBuilder) : BRes Unit :=
  if st.linked then .ok st ()
  else
    let st := { st with linked := true }
    let dataSize := (st.data.length + (2 ^ 64 - rLE 4 st.data 16 % 2 ^ 64)) % 2 ^ 64
    let linksOffset := st.data.length
    if st.links.isEmpty then
      .ok { st with
            data := writeHeader st.data linksOffset st.links.length dataSize st.data.length } ()
    else if linksOffset + 8 * st.links.length > INT32MAX then
      .err st "file too big"
    else
      let d2 := st.data ++ table st.links
      .ok { st with
            data := writeHeader d2 linksOffset st.links.length dataSize d2.length } ()

/-- Result of `DBFileReader::ValidateAndLink`: success or a thrown error,
each carrying the buffer as it is at that point (link resolution mutates in
place, so an error thrown inside the loop keeps earlier writes). -/
inductive RRes where
  | ok (buf : List Nat)
  | err (buf : List Nat) (msg : String)
  deriving DecidableEq, Repr

/-- The buffer carried by a reader result. -/
def RRes.buf : RRes → List Nat
  | .ok b => b
  | .err b _ => b

/-- Whether validation succeeded. -/
def RRes.isOk : RRes → Bool
  | .ok _ => true
  | .err _ _ => false

/-- The link-resolution loop of `ValidateAndLink` (lines 234-242).  The
table pointer `lto` (`links_table_offset`) is computed once before the
loop; the loop condition re-reads `links_count` (offset 10) and the bound
checks re-read `file_size` (offset 24) from the current buffer on every
iteration, so writes that corrupt the header change the loop's behaviour.
Each iteration reads record `i`, checks `origin <= file_size` and
`destination <= file_size`, then stores the 8-byte pointer
`base + destination` over the bytes at `origin`.  The fuel argument starts
at `2^16`: `links_count` is a 2-byte load, hence below `2^16`, and `i`
increases by one per iteration, so when fuel runs out `i = 2^16` exceeds
every possible `links_count` and the loop would exit anyway — the fuel-zero
result equals the loop exit. -/
def linkLoop (base lto : Nat) : Nat → Nat → List Nat → RRes
  | 0, _, buf => .ok buf
  | fuel + 1, i, buf =>
    if i < rLE 2 buf 10 then
      let o := rLE 4 buf (lto + 8 * i)
      let d := rLE 4 buf (lto + 8 * i + 4)
      if o > rLE 4 buf 24 then .err buf "invalid file: link after end file"
      else if d > rLE 4 buf 24 then .err buf "invalid file: link after end file"
      else linkLoop base lto fuel (i + 1) (wLE 8 buf o (base + d))
    else .ok buf

/-- `DBFileReader::ValidateAndLink` (line 212).  `len = 0` means the length
is unknown and both length checks are skipped.  The "file too small"
threshold is `offsetof(DB_FILE, file_size) + sizeof(sizeof(file->file_size))`
= 24 + sizeof(size_t) = 24 + 8 = 32 bytes, exactly as the C++ expression
evaluates on the reference LP64 platform. -/
def validateAndLink (buf : List Nat) (base len : Nat) : RRes :=
  if len ≠ 0 ∧ len < 32 then .err buf "invalid file: file too small"
  else if rLE 8 buf 0 ≠ MAGIC then .err buf "invalid file: bad magic"
  else if buf.getD 8 0 < MIN_VERSION then .err buf "invalid file: version too low"
  else if len ≠ 0 ∧ rLE 4 buf 24 > len then .err buf "invalid file: read file too small"
  else if rLE 4 buf 16 > rLE 4 buf 24 then .err buf "invalid file: start offset after file end"
  else if buf.getD 8 0 ≥ LINKING then linkLoop base (rLE 4 buf 12) (2 ^ 16) 0 buf
  else .ok buf

/-- One builder operation of a session: the two `CreateBlock` overloads and
`CreateLink`. -/
inductive Op where
  | block (bytes : List Nat)
  | blockZ (len : Nat)
  | link (blockOrigin origin blockDestination destination : Nat)

/-- Run a builder session in which, as claim C1 hypothesizes, "blocks and
links satisfy the build-time bounds": every operation succeeds, and each
`CreateLink` call satisfies the spec's mathematical bounds — the origin
offset plus 8 fits in the origin block and the destination offset lies
within the recorded destination block (spec section 3).  Returns `none`
when some operation fails or a link misses those bounds. -/
def runSession : DBFileBuilder → List Op → Option DBFileBuilder
  | st, [] => some st
  | st, .block bs :: rest =>
    match createBlock st bs with
    | .ok st2 _ => runSession st2 rest
    | .err _ _ => none
  | st, .blockZ n :: rest =>
    match createBlockZ st n with
    | .ok st2 _ => runSession st2 rest
    | .err _ _ => none
  | st, .link bo oo bd dof :: rest =>
    if oo + 8 ≤ getBlockSize st bo ∧ dof ≤ getBlockSize st bd ∧ 0 < getBlockSize st bd then
      match createLink st bo oo bd dof with
      | .ok st2 _ => runSession st2 rest
      | .err _ _ => none
    else none

/-- Two link records whose 8-byte origin slots do not overlap. -/
def SlotDisj (l1 l2 : Nat × Nat) : Prop := l1.1 + 8 ≤ l2.1 ∨ l2.1 + 8 ≤ l1.1

instance : DecidableRel SlotDisj := fun l1 l2 =>
  inferInstanceAs (Decidable (l1.1 + 8 ≤ l2.1 ∨ l2.1 + 8 ≤ l1.1))

/-- Invariant of every reachable (not yet finalized) builder state: the
buffer holds at least the initial `BUILDER_SIZE` bytes, stays under the
cap, its initial region is untouched since construction, every recorded
block lies after the initial region and inside the buffer, and every
recorded link slot lies after the initial region with its 8 origin bytes
and its destination inside the buffer. -/
structure WFB (st : DBFileBuilder) : Prop where
  linked : st.linked = false
  lenR : BUILDER_SIZE ≤ st.data.length
  cap : st.data.length ≤ INT32MAX
  pre : ∀ i, i < BUILDER_SIZE → st.data.getD i 0 = newBuilder.data.getD i 0
  blocks : ∀ p ∈ st.blocks, BUILDER_SIZE ≤ p.1 ∧ 1 ≤ p.2 ∧ p.1 + p.2 ≤ st.data.length
  links : ∀ l ∈ st.links, BUILDER_SIZE ≤ l.1 ∧ l.1 + 8 ≤ st.data.length ∧
    l.2 ≤ st.data.length

/-- `k` successive calls `CreateLink(BUILDER_SIZE, 0, BUILDER_SIZE, 0)`
(used to drive the link count past `2^16`). -/
def repeatLink : Nat → DBFileBuilder → DBFileBuilder
  | 0, st => st
  | k + 1, st => repeatLink k (BRes.state (createLink st BUILDER_SIZE 0 BUILDER_SIZE 0))

/-- A 40-byte buffer of zeros: its magic field does not match. -/
def c2buf : List Nat := List.replicate 40 0

/-- A hand-crafted container: valid magic, version `0x10`, one link record
at table offset 28 whose origin equals `file_size` (36), destination 0,
`start_offset` 28, `file_size` 36, followed by 16 spare bytes.  It passes
every validation step, and resolving its link writes the 8 bytes at
offsets 36..43 — at and past `file_size`. -/
def c5buf : List Nat :=
  leBytes 8 MAGIC ++ [16, 0] ++ leBytes 2 1 ++ leBytes 4 28 ++ leBytes 4 28 ++
    leBytes 4 8 ++ leBytes 4 36 ++ serLink (36, 0) ++ List.replicate 16 0

/-- A complete, valid 28-byte header (no payload, no links):
`file_size = 28`, `start_offset = 28`, zero link records. -/
def c8buf : List Nat :=
  leBytes 8 MAGIC ++ [16, 0] ++ leBytes 2 0 ++ leBytes 4 28 ++ leBytes 4 28 ++
    leBytes 4 0 ++ leBytes 4 28

/-- The resolved buffer produced by reading `c5buf` at base address 1 with
unknown length. -/
def c5out : List Nat := (validateAndLink c5buf 1 0).buf

/-- A session with two links whose origin slots coincide (both anchored at
offset 0 of the first block): block A of 16 bytes (id 112), block B of
8 bytes (id 128), then `CreateLink(A,0,A,0)` and `CreateLink(A,0,B,0)`. -/
def c1ops : List Op :=
  [Op.blockZ 16, Op.blockZ 8, Op.link 112 0 112 0, Op.link 112 0 128 0]

/-- The builder state reached by `c1ops`. -/
def c1st : DBFileBuilder := (runSession newBuilder c1ops).getD newBuilder

/-- The finalized builder for `c1ops`. -/
def c1stb : DBFileBuilder := (build c1st).state

/-- The buffer after reading the `c1ops` container at base address 0. -/
def c1out : List Nat := (validateAndLink c1stb.data 0 c1stb.data.length).buf

/-- A session with two blocks and one link from block A (id 112) to block
B (id 128), exercising the round-trip theorem. -/
def c1wops : List Op := [Op.blockZ 16, Op.blockZ 8, Op.link 112 0 128 0]

/-- The builder state reached by `c1wops`. -/
def c1wst : DBFileBuilder := (runSession newBuilder c1wops).getD newBuilder

/-- The finalized builder for `c1wops`. -/
def c1wstb : DBFileBuilder := (build c1wst).state

/-- The state of a fresh builder after its first (empty) finalize. -/
def c6st1 : DBFileBuilder := (build newBuilder).state

/-- A builder whose buffer already holds `INT32_MAX` bytes and one link:
any further growth trips the size-cap checks. -/
def c9st : DBFileBuilder :=
  { linked := false, data := List.replicate INT32MAX 0, blocks := [], links := [(0, 0)] }

/-- A fresh builder holding one 16-byte block at id `BUILDER_SIZE`. -/
def c10base : DBFileBuilder := (createBlockZ newBuilder 16).state

/-- `c10base` after 65536 `CreateLink` calls. -/
def c10st : DBFileBuilder := repeatLink 65536 c10base

/-- A small session: one 16-byte block and one self-link. -/
def c10wst : DBFileBuilder :=
  (runSession newBuilder [Op.blockZ 16, Op.link 112 0 112 0]).getD newBuilder

/-- The finalized builder for `c10wst`. -/
def c10wstb : DBFileBuilder := (build c10wst).state

/-- A buffer all of whose entries are byte values. -/
def Bytes (b : List Nat) : Prop := ∀ x ∈ b, x < 256

instance (b : List Nat) : Decidable (Bytes b) :=
  inferInstanceAs (Decidable (∀ x ∈ b, x < 256))

theorem length_setB (b : List Nat) (i v : Nat) : (setB b i v).length = b.length := by
  simp [setB]

theorem getD_setB_eq : ∀ (b : List Nat) (i v : Nat), i < b.length →
    (setB b i v).getD i 0 = v % 256
  | [], i, v, h => by simp at h
  | a :: t, 0, v, _ => by simp [setB]
  | a :: t, i + 1, v, h => by
    have := getD_setB_eq t i v (by simpa using h)
    simpa [setB] using this

theorem getD_setB_ne : ∀ (b : List Nat) (i j v : Nat), i ≠ j →
    (setB b i v).getD j 0 = b.getD j 0
  | [], _, _, _, _ => by simp [setB]
  | a :: t, 0, 0, v, h => absurd rfl h
  | a :: t, 0, j + 1, v, _ => by simp [setB]
  | a :: t, i + 1, 0, v, _ => by simp [setB]
  | a :: t, i + 1, j + 1, v, h => by
    have := getD_setB_ne t i j v (fun e => h (by omega))
    simpa [setB] using this

theorem length_wLE : ∀ (n : Nat) (b : List Nat) (i v : Nat),
    (wLE n b i v).length = b.length
  | 0, _, _, _ => rfl
  | n + 1, b, i, v => by
    rw [wLE, length_wLE n, length_setB]

theorem getD_wLE_out : ∀ (n : Nat) (b : List Nat) (i v j : Nat),
    (j < i ∨ i + n ≤ j) → (wLE n b i v).getD j 0 = b.getD j 0
  | 0, _, _, _, _, _ => rfl
  | n + 1, b, i, v, j, h => by
    rw [wLE, getD_wLE_out n _ (i + 1) _ j (by omega), getD_setB_ne b i j v (by omega)]

theorem rLE_congr : ∀ (n : Nat) (b1 : List Nat) (i1 : Nat) (b2 : List Nat) (i2 : Nat),
    (∀ k, k < n → b1.getD (i1 + k) 0 = b2.getD (i2 + k) 0) → rLE n b1 i1 = rLE n b2 i2
  | 0, _, _, _, _, _ => rfl
  | n + 1, b1, i1, b2, i2, h => by
    rw [rLE, rLE]
    have h0 := h 0 (by omega)
    simp only [Nat.add_zero] at h0
    rw [h0, rLE_congr n b1 (i1 + 1) b2 (i2 + 1) (fun k hk => by
      have := h (k + 1) (by omega)
      have e1 : i1 + (k + 1) = i1 + 1 + k := by omega
      have e2 : i2 + (k + 1) = i2 + 1 + k := by omega
      rwa [e1, e2] at this)]

theorem rLE_wLE : ∀ (n : Nat) (b : List Nat) (i v : Nat), i + n ≤ b.length →
    rLE n (wLE n b i v) i = v % 256 ^ n
  | 0, _, _, _, _ => by simp [rLE, wLE, Nat.mod_one]
  | n + 1, b, i, v, h => by
    rw [wLE, rLE]
    have hlt : i < b.length := by omega
    have h1 : (wLE n (setB b i v) (i + 1) (v / 256)).getD i 0 = v % 256 := by
      rw [getD_wLE_out n _ (i + 1) _ i (by omega), getD_setB_eq b i v hlt]
    have h2 : rLE n (wLE n (setB b i v) (i + 1) (v / 256)) (i + 1) = v / 256 % 256 ^ n :=
      rLE_wLE n (setB b i v) (i + 1) (v / 256) (by rw [length_setB]; omega)
    rw [h1, h2, Nat.pow_succ, Nat.mul_comm (256 ^ n) 256, Nat.mod_mul, Nat.add_comm]

theorem length_leBytes : ∀ (n v : Nat), (leBytes n v).length = n
  | 0, _ => rfl
  | n + 1, v => by rw [leBytes, List.length_cons, length_leBytes n]

theorem rLE_cons_succ : ∀ (n : Nat) (x : Nat) (xs : List Nat) (i : Nat),
    rLE n (x :: xs) (i + 1) = rLE n xs i
  | 0, _, _, _ => rfl
  | n + 1, x, xs, i => by
    rw [rLE, rLE, rLE_cons_succ n x xs (i + 1), List.getD_cons_succ]

theorem rLE_leBytes : ∀ (n v : Nat), rLE n (leBytes n v) 0 = v % 256 ^ n
  | 0, _ => by simp [rLE, leBytes, Nat.mod_one]
  | n + 1, v => by
    rw [leBytes, rLE, List.getD_cons_zero, rLE_cons_succ, rLE_leBytes n,
      Nat.pow_succ, Nat.mul_comm (256 ^ n) 256, Nat.mod_mul, Nat.add_comm]

theorem bytes_getD {b : List Nat} (hb : Bytes b) (i : Nat) : b.getD i 0 < 256 := by
  rcases Nat.lt_or_ge i b.length with h | h
  · rw [List.getD_eq_getElem b 0 h]
    exact hb _ (List.getElem_mem h)
  · rw [List.getD_eq_default b 0 h]
    omega

theorem rLE_lt {b : List Nat} (hb : Bytes b) : ∀ (n i : Nat), rLE n b i < 256 ^ n
  | 0, _ => by simp [rLE]
  | n + 1, i => by
    rw [rLE, Nat.pow_succ, Nat.mul_comm (256 ^ n) 256]
    have h1 := bytes_getD hb i
    have h2 := rLE_lt hb n (i + 1)
    calc b.getD i 0 + 256 * rLE n b (i + 1) < 256 + 256 * rLE n b (i + 1) := by omega
    _ = 256 * (rLE n b (i + 1) + 1) := by ring
    _ ≤ 256 * 256 ^ n := Nat.mul_le_mul_left 256 h2

theorem bytes_setB {b : List Nat} (hb : Bytes b) (i v : Nat) : Bytes (setB b i v) := by
  intro x hx
  rcases List.mem_or_eq_of_mem_set hx with h | h
  · exact hb x h
  · omega

theorem bytes_wLE {b : List Nat} (hb : Bytes b) : ∀ (n i v : Nat), Bytes (wLE n b i v)
  | 0, _, _ => hb
  | n + 1, i, v => by
    rw [wLE]
    exact bytes_wLE (bytes_setB hb i v) n (i + 1) (v / 256)

theorem length_table : ∀ ls : List (Nat × Nat), (table ls).length = 8 * ls.length
  | [] => rfl
  | l :: ls => by
    rw [table, List.length_append, length_table ls, serLink, List.length_append,
      length_leBytes, length_leBytes, List.length_cons]
    ring

theorem rLE_append_right (n : Nat) (l1 l2 : List Nat) (i : Nat) (h : l1.length ≤ i) :
    rLE n (l1 ++ l2) i = rLE n l2 (i - l1.length) := by
  refine rLE_congr n (l1 ++ l2) i l2 (i - l1.length) (fun k hk => ?_)
  rw [List.getD_append_right l1 l2 0 (i + k) (by omega)]
  congr 1
  omega

theorem rLE_append_left (n : Nat) (l1 l2 : List Nat) (i : Nat) (h : i + n ≤ l1.length) :
    rLE n (l1 ++ l2) i = rLE n l1 i := by
  refine rLE_congr n (l1 ++ l2) i l1 i (fun k hk => ?_)
  rw [List.getD_append l1 l2 0 (i + k) (by omega)]

theorem rLE_leBytes_append (a : Nat) (rest : List Nat) :
    rLE 4 (leBytes 4 a ++ rest) 0 = a % 2 ^ 32 := by
  rw [rLE_append_left 4 _ _ 0 (by rw [length_leBytes]), rLE_leBytes]
  norm_num

theorem rLE_leBytes_append_four (a : Nat) (rest : List Nat) :
    rLE 4 (leBytes 4 a ++ rest) 4 = rLE 4 rest 0 := by
  rw [rLE_append_right 4 _ _ 4 (by rw [length_leBytes]), length_leBytes]

theorem length_serLink (l : Nat × Nat) : (serLink l).length = 8 := by
  rw [serLink, List.length_append, length_leBytes, length_leBytes]

/-- Reading the components of record `j` out of a serialized link table. -/
theorem rLE_table : ∀ (ls : List (Nat × Nat)) (j : Nat) (hj : j < ls.length),
    rLE 4 (table ls) (8 * j) = (ls.get ⟨j, hj⟩).1 % 2 ^ 32 ∧
    rLE 4 (table ls) (8 * j + 4) = (ls.get ⟨j, hj⟩).2 % 2 ^ 32
  | [], j, hj => by simp at hj
  | l :: ls, 0, _ => by
    constructor
    · rw [table, serLink, List.append_assoc, Nat.mul_zero, rLE_leBytes_append]
      rfl
    · rw [table, serLink, List.append_assoc, Nat.mul_zero, Nat.zero_add,
        rLE_leBytes_append_four, rLE_leBytes_append]
      rfl
  | l :: ls, j + 1, hj => by
    have hj2 : j < ls.length := by simpa using hj
    have h1 : rLE 4 (table (l :: ls)) (8 * (j + 1)) = rLE 4 (table ls) (8 * j) := by
      rw [table, rLE_append_right 4 _ _ _ (by rw [length_serLink]; omega), length_serLink]
      all_goals congr 1
    have h2 : rLE 4 (table (l :: ls)) (8 * (j + 1) + 4) = rLE 4 (table ls) (8 * j + 4) := by
      rw [table, rLE_append_right 4 _ _ _ (by rw [length_serLink]; omega), length_serLink]
      all_goals congr 1
    obtain ⟨ih1, ih2⟩ := rLE_table ls j hj2
    exact ⟨by rw [h1, ih1]; rfl, by rw [h2, ih2]; rfl⟩

theorem pow256_two : (256 : Nat) ^ 2 = 2 ^ 16 := by norm_num

theorem pow256_four : (256 : Nat) ^ 4 = 2 ^ 32 := by norm_num

theorem pow256_eight : (256 : Nat) ^ 8 = 2 ^ 64 := by norm_num

theorem rLE_wLE_out (n m : Nat) (b : List Nat) (i v j : Nat)
    (h : j + n ≤ i ∨ i + m ≤ j) : rLE n (wLE m b i v) j = rLE n b j := by
  refine rLE_congr n _ j b j (fun k hk => ?_)
  exact getD_wLE_out m b i v (j + k) (by omega)

theorem rLE_setB_out (n : Nat) (b : List Nat) (i v j : Nat)
    (h : j + n ≤ i ∨ i < j) : rLE n (setB b i v) j = rLE n b j := by
  refine rLE_congr n _ j b j (fun k hk => ?_)
  exact getD_setB_ne b i (j + k) v (by omega)

theorem length_writeHeader (b : List Nat) (a c d e : Nat) :
    (writeHeader b a c d e).length = b.length := by
  rw [writeHeader, length_wLE, length_wLE, length_wLE, length_wLE, length_setB, length_wLE]

theorem getD_writeHeader_ge (b : List Nat) (a c d e i : Nat) (h : 28 ≤ i) :
    (writeHeader b a c d e).getD i 0 = b.getD i 0 := by
  rw [writeHeader, getD_wLE_out 4 _ 24 _ i (by omega), getD_wLE_out 4 _ 20 _ i (by omega),
    getD_wLE_out 2 _ 10 _ i (by omega), getD_wLE_out 4 _ 12 _ i (by omega),
    getD_setB_ne _ 8 i _ (by omega), getD_wLE_out 8 _ 0 _ i (by omega)]

theorem writeHeader_magic (b : List Nat) (a c d e : Nat) (h : 28 ≤ b.length) :
    rLE 8 (writeHeader b a c d e) 0 = MAGIC := by
  rw [writeHeader, rLE_wLE_out 8 4 _ 24 _ 0 (by omega), rLE_wLE_out 8 4 _ 20 _ 0 (by omega),
    rLE_wLE_out 8 2 _ 10 _ 0 (by omega), rLE_wLE_out 8 4 _ 12 _ 0 (by omega),
    rLE_setB_out 8 _ 8 _ 0 (by omega), rLE_wLE 8 b 0 MAGIC (by omega)]
  decide

theorem writeHeader_version (b : List Nat) (a c d e : Nat) (h : 28 ≤ b.length) :
    (writeHeader b a c d e).getD 8 0 = 16 := by
  rw [writeHeader, getD_wLE_out 4 _ 24 _ 8 (by omega), getD_wLE_out 4 _ 20 _ 8 (by omega),
    getD_wLE_out 2 _ 10 _ 8 (by omega), getD_wLE_out 4 _ 12 _ 8 (by omega),
    getD_setB_eq _ 8 _ (by rw [length_wLE]; omega)]
  decide

theorem writeHeader_count (b : List Nat) (a c d e : Nat) (h : 28 ≤ b.length) :
    rLE 2 (writeHeader b a c d e) 10 = c % 2 ^ 16 := by
  rw [writeHeader, rLE_wLE_out 2 4 _ 24 _ 10 (by omega), rLE_wLE_out 2 4 _ 20 _ 10 (by omega),
    rLE_wLE 2 _ 10 c (by rw [length_wLE, length_setB, length_wLE]; omega), pow256_two]

theorem writeHeader_lto (b : List Nat) (a c d e : Nat) (h : 28 ≤ b.length) :
    rLE 4 (writeHeader b a c d e) 12 = a % 2 ^ 32 := by
  rw [writeHeader, rLE_wLE_out 4 4 _ 24 _ 12 (by omega), rLE_wLE_out 4 4 _ 20 _ 12 (by omega),
    rLE_wLE_out 4 2 _ 10 _ 12 (by omega),
    rLE_wLE 4 _ 12 a (by rw [length_setB, length_wLE]; omega), pow256_four]

theorem writeHeader_start (b : List Nat) (a c d e : Nat) :
    rLE 4 (writeHeader b a c d e) 16 = rLE 4 b 16 := by
  rw [writeHeader, rLE_wLE_out 4 4 _ 24 _ 16 (by omega), rLE_wLE_out 4 4 _ 20 _ 16 (by omega),
    rLE_wLE_out 4 2 _ 10 _ 16 (by omega), rLE_wLE_out 4 4 _ 12 _ 16 (by omega),
    rLE_setB_out 4 _ 8 _ 16 (by omega), rLE_wLE_out 4 8 _ 0 _ 16 (by omega)]

theorem writeHeader_ds (b : List Nat) (a c d e : Nat) (h : 28 ≤ b.length) :
    rLE 4 (writeHeader b a c d e) 20 = d % 2 ^ 32 := by
  rw [writeHeader, rLE_wLE_out 4 4 _ 24 _ 20 (by omega),
    rLE_wLE 4 _ 20 d (by rw [length_wLE, length_wLE, length_setB, length_wLE]; omega),
    pow256_four]

theorem writeHeader_fs (b : List Nat) (a c d e : Nat) (h : 28 ≤ b.length) :
    rLE 4 (writeHeader b a c d e) 24 = e % 2 ^ 32 := by
  rw [writeHeader,
    rLE_wLE 4 _ 24 e
      (by rw [length_wLE, length_wLE, length_wLE, length_setB, length_wLE]; omega),
    pow256_four]

theorem bytes_writeHeader {b : List Nat} (hb : Bytes b) (a c d e : Nat) :
    Bytes (writeHeader b a c d e) := by
  rw [writeHeader]
  exact bytes_wLE (bytes_wLE (bytes_wLE (bytes_wLE (bytes_setB
    (bytes_wLE hb 8 0 MAGIC) 8 CURR_VERSION) 4 12 a) 2 10 c) 4 20 d) 4 24 e

theorem lookupSize_mem : ∀ (bl : List (Nat × Nat)) (id : Nat),
    lookupSize bl id ≠ 0 → (id, lookupSize bl id) ∈ bl
  | [], _, h => absurd rfl h
  | (k, v) :: r, id, h => by
    by_cases e : id = k
    · subst e
      rw [lookupSize, if_pos rfl] at h ⊢
      exact List.mem_cons_self _ _
    · rw [lookupSize, if_neg e] at h ⊢
      exact List.mem_cons_of_mem _ (lookupSize_mem r id h)

theorem newBuilder_len : newBuilder.data.length = BUILDER_SIZE := by decide

theorem newBuilder_start : rLE 4 newBuilder.data 16 = BUILDER_SIZE := by decide

theorem wfb_start {st : DBFileBuilder} (hw : WFB st) : rLE 4 st.data 16 = BUILDER_SIZE := by
  have h := rLE_congr 4 st.data 16 newBuilder.data 16 (fun k hk =>
    hw.pre (16 + k) (by have e : BUILDER_SIZE = 112 := rfl; omega))
  rw [h, newBuilder_start]

theorem wf_newBuilder : WFB newBuilder := by
  refine ⟨rfl, by decide, by decide, fun i hi => rfl, ?_, ?_⟩
  · intro p hp
    exact absurd hp (List.not_mem_nil p)
  · intro l hl
    exact absurd hl (List.not_mem_nil l)

theorem wf_extend {st : DBFileBuilder} {bs : List Nat} (hw : WFB st)
    (h1 : 1 ≤ bs.length) (h2 : st.data.length + bs.length ≤ INT32MAX) :
    WFB { st with
          linked := false
          data := st.data ++ bs
          blocks := (st.data.length, bs.length) :: st.blocks } := by
  refine ⟨rfl, ?_, ?_, ?_, ?_, ?_⟩
  · simp only [List.length_append]
    have := hw.lenR
    omega
  · simp only [List.length_append]
    exact h2
  · intro i hi
    have hlt : i < st.data.length := by
      have := hw.lenR
      omega
    rw [List.getD_append _ _ 0 i hlt]
    exact hw.pre i hi
  · intro p hp
    simp only [List.length_append]
    rcases List.mem_cons.mp hp with h | h
    · subst h
      exact ⟨hw.lenR, h1, by omega⟩
    · obtain ⟨a, b, c⟩ := hw.blocks p h
      exact ⟨a, b, by omega⟩
  · intro l hl
    simp only [List.length_append]
    obtain ⟨a, b, c⟩ := hw.links l hl
    exact ⟨a, by omega, by omega⟩

theorem wf_createBlock {st st2 : DBFileBuilder} {bs : List Nat} {id : Nat}
    (hw : WFB st) (h : createBlock st bs = .ok st2 id) : WFB st2 := by
  by_cases hb : bs.length ≠ 0
  · by_cases hc : st.data.length + bs.length > INT32MAX
    · exact absurd h (by simp [createBlock, assertNotLinked, hb, hc])
    · have h2 : st2 = { st with
          linked := false
          data := st.data ++ bs
          blocks := (st.data.length, bs.length) :: st.blocks } := by
        simp only [createBlock, assertNotLinked, if_pos hb] at h
        rw [if_neg hc] at h
        cases h
        rfl
      rw [h2]
      exact wf_extend hw (by omega) (by omega)
  · have h2 : st2 = { st with linked := false } := by
      simp only [createBlock, assertNotLinked, if_neg hb] at h
      cases h
      rfl
    rw [h2]
    exact ⟨rfl, hw.lenR, hw.cap, hw.pre, hw.blocks, hw.links⟩

theorem wf_createBlockZ {st st2 : DBFileBuilder} {n : Nat} {id : Nat}
    (hw : WFB st) (h : createBlockZ st n = .ok st2 id) : WFB st2 := by
  by_cases hb : n ≠ 0
  · by_cases hc : st.data.length + n > INT32MAX
    · exact absurd h (by simp [createBlockZ, assertNotLinked, hb, hc])
    · have h2 : st2 = { st with
          linked := false
          data := st.data ++ List.replicate n 0
          blocks := (st.data.length, n) :: st.blocks } := by
        simp only [createBlockZ, assertNotLinked, if_pos hb] at h
        rw [if_neg hc] at h
        cases h
        rfl
      rw [h2]
      have hr : (List.replicate n 0).length = n := List.length_replicate n 0
      have := @wf_extend st (List.replicate n 0) hw (by omega) (by omega)
      rw [hr] at this
      exact this
  · have h2 : st2 = { st with linked := false } := by
      simp only [createBlockZ, assertNotLinked, if_neg hb] at h
      cases h
      rfl
    rw [h2]
    exact ⟨rfl, hw.lenR, hw.cap, hw.pre, hw.blocks, hw.links⟩

theorem wf_createLink {st st2 : DBFileBuilder} {bo oo bd dof : Nat}
    (hw : WFB st) (h1 : oo + 8 ≤ getBlockSize st bo) (h2 : dof ≤ getBlockSize st bd)
    (h3 : 0 < getBlockSize st bd)
    (h : createLink st bo oo bd dof = .ok st2 ()) :
    WFB st2 ∧ st2.data = st.data ∧ st2.links = st.links ++ [(bo + oo, bd + dof)] := by
  have hbo : (bo, getBlockSize st bo) ∈ st.blocks :=
    lookupSize_mem st.blocks bo (by unfold getBlockSize at h1; omega)
  have hbd : (bd, getBlockSize st bd) ∈ st.blocks :=
    lookupSize_mem st.blocks bd (by unfold getBlockSize at h3; omega)
  obtain ⟨ho1, _, ho3⟩ := hw.blocks _ hbo
  obtain ⟨hd1, _, hd3⟩ := hw.blocks _ hbd
  have hcap := hw.cap
  have hi32 : INT32MAX = 2147483647 := rfl
  have hB : BUILDER_SIZE = 112 := rfl
  have hoo : (oo + 8) % 2 ^ 32 = oo + 8 := Nat.mod_eq_of_lt (by omega)
  have hosum : (bo + oo) % 2 ^ 32 = bo + oo := Nat.mod_eq_of_lt (by omega)
  have hdsum : (bd + dof) % 2 ^ 32 = bd + dof := Nat.mod_eq_of_lt (by omega)
  have hg : ∀ x, getBlockSize (assertNotLinked st) x = getBlockSize st x := fun _ => rfl
  have hcond : ¬ ((oo + 8) % 2 ^ 32 > getBlockSize st bo ∨ dof > getBlockSize st bd) := by
    rw [hoo]
    omega
  have h4 : st2 = { st with
      linked := false
      links := st.links ++ [((bo + oo) % 2 ^ 32, (bd + dof) % 2 ^ 32)] } := by
    simp only [createLink, hg] at h
    rw [if_neg hcond] at h
    cases h
    rfl
  rw [h4, hosum, hdsum]
  refine ⟨⟨rfl, hw.lenR, hw.cap, hw.pre, hw.blocks, ?_⟩, rfl, rfl⟩
  intro l hl
  show BUILDER_SIZE ≤ l.1 ∧ l.1 + 8 ≤ st.data.length ∧ l.2 ≤ st.data.length
  rcases List.mem_append.mp hl with hm | hm
  · exact hw.links l hm
  · rw [List.mem_singleton.mp hm]
    exact ⟨by omega, by omega, by omega⟩

theorem runSession_wf : ∀ (ops : List Op) (st st2 : DBFileBuilder),
    runSession st ops = some st2 → WFB st → WFB st2
  | [], st, st2, h, hw => by
    rw [runSession] at h
    cases h
    exact hw
  | .block bs :: rest, st, st2, h, hw => by
    rw [runSession] at h
    cases hc : createBlock st bs with
    | ok stm id =>
      rw [hc] at h
      exact runSession_wf rest stm st2 h (wf_createBlock hw hc)
    | err a b =>
      rw [hc] at h
      cases h
  | .blockZ n :: rest, st, st2, h, hw => by
    rw [runSession] at h
    cases hc : createBlockZ st n with
    | ok stm id =>
      rw [hc] at h
      exact runSession_wf rest stm st2 h (wf_createBlockZ hw hc)
    | err a b =>
      rw [hc] at h
      cases h
  | .link bo oo bd dof :: rest, st, st2, h, hw => by
    rw [runSession] at h
    by_cases hcond : oo + 8 ≤ getBlockSize st bo ∧ dof ≤ getBlockSize st bd ∧
        0 < getBlockSize st bd
    · rw [if_pos hcond] at h
      cases hc : createLink st bo oo bd dof with
      | ok stm v =>
        rw [hc] at h
        cases v
        exact runSession_wf rest stm st2 h
          (wf_createLink hw hcond.1 hcond.2.1 hcond.2.2 hc).1
      | err a b =>
        rw [hc] at h
        cases h
    · rw [if_neg hcond] at h
      cases h

theorem build_eq (st : DBFileBuilder) (h1 : st.linked = false)
    (h2 : rLE 4 st.data 16 = BUILDER_SIZE) (h3 : BUILDER_SIZE ≤ st.data.length)
    (h4 : st.data.length + 8 * st.links.length ≤ INT32MAX) :
    build st = .ok { st with
      linked := true
      data := writeHeader (st.data ++ table st.links) st.data.length st.links.length
        (st.data.length - BUILDER_SIZE) (st.data.length + 8 * st.links.length) } () := by
  have hB : BUILDER_SIZE = 112 := rfl
  have hi32 : INT32MAX = 2147483647 := rfl
  have hds : (st.data.length + (2 ^ 64 - rLE 4 st.data 16 % 2 ^ 64)) % 2 ^ 64 =
      st.data.length - BUILDER_SIZE := by
    rw [h2]
    have e : BUILDER_SIZE % 2 ^ 64 = BUILDER_SIZE := Nat.mod_eq_of_lt (by rw [hB]; omega)
    rw [e]
    omega
  cases hl : st.links with
  | nil =>
    have he : st.links.isEmpty = true := by rw [hl]; rfl
    simp only [build, h1, Bool.false_eq_true, if_false, he, if_true, hds, hl]
    rw [table, List.append_nil]
    norm_num
  | cons a as =>
    have he : st.links.isEmpty = false := by rw [hl]; rfl
    have hc : ¬ st.data.length + 8 * st.links.length > INT32MAX := by omega
    simp only [build, h1, Bool.false_eq_true, if_false, he, Bool.false_eq_true, if_false,
      hds]
    rw [if_neg (by rw [hl] at hc ⊢; exact hc)]
    have hlen : (st.data ++ table st.links).length =
        st.data.length + 8 * st.links.length := by
      rw [List.length_append, length_table]
    rw [hl] at hlen ⊢
    rw [hlen]

theorem rLE_writeHeader_ge (n : Nat) (b : List Nat) (a c d e i : Nat) (h : 28 ≤ i) :
    rLE n (writeHeader b a c d e) i = rLE n b i := by
  refine rLE_congr n _ i b i (fun k hk => ?_)
  exact getD_writeHeader_ge b a c d e (i + k) (by omega)

/-- Any byte changed by a successful link-resolution loop lies below
`2^32 + 7`: each write starts at an origin that passed the comparison with
the 32-bit `file_size` field and spans 8 bytes. -/
theorem linkLoop_writes_bound {base lto : Nat} :
    ∀ (fuel i : Nat) (buf out : List Nat), Bytes buf →
      linkLoop base lto fuel i buf = .ok out →
      ∀ k, out.getD k 0 ≠ buf.getD k 0 → k < 2 ^ 32 + 7
  | 0, i, buf, out, _, h, k, hk => by
    rw [linkLoop] at h
    cases h
    exact absurd rfl hk
  | fuel + 1, i, buf, out, hb, h, k, hk => by
    rw [linkLoop] at h
    by_cases hc : i < rLE 2 buf 10
    · rw [if_pos hc] at h
      by_cases h1 : rLE 4 buf (lto + 8 * i) > rLE 4 buf 24
      · rw [if_pos h1] at h
        cases h
      · rw [if_neg h1] at h
        by_cases h2 : rLE 4 buf (lto + 8 * i + 4) > rLE 4 buf 24
        · rw [if_pos h2] at h
          cases h
        · rw [if_neg h2] at h
          have hb2 : Bytes (wLE 8 buf (rLE 4 buf (lto + 8 * i))
              (base + rLE 4 buf (lto + 8 * i + 4))) := bytes_wLE hb 8 _ _
          have hfs : rLE 4 buf 24 < 2 ^ 32 := by
            have := rLE_lt hb 4 24
            rwa [pow256_four] at this
          by_cases hch : out.getD k 0 = (wLE 8 buf (rLE 4 buf (lto + 8 * i))
              (base + rLE 4 buf (lto + 8 * i + 4))).getD k 0
          · have hk2 : (wLE 8 buf (rLE 4 buf (lto + 8 * i))
                (base + rLE 4 buf (lto + 8 * i + 4))).getD k 0 ≠ buf.getD k 0 := by
              rw [← hch]
              exact hk
            by_cases hr : k < rLE 4 buf (lto + 8 * i) ∨ rLE 4 buf (lto + 8 * i) + 8 ≤ k
            · exact absurd (getD_wLE_out 8 buf _ _ k hr) hk2
            · push_neg at hr
              omega
          · exact linkLoop_writes_bound fuel (i + 1) _ out hb2 h k hch
    · rw [if_neg hc] at h
      cases h
      exact absurd rfl hk

/-- Specification of the link-resolution loop on a well-formed built
buffer: all records are processed and resolved, bytes outside the origin
slots keep their values, and every slot holds the resolved address. -/
theorem linkLoop_spec (base L FS : Nat) (ls : List (Nat × Nat))
    (hLFS : L + 8 * ls.length ≤ FS)
    (hn : ls.length < 2 ^ 16)
    (hlk : ∀ j (hj : j < ls.length), 28 ≤ (ls.get ⟨j, hj⟩).1 ∧
      (ls.get ⟨j, hj⟩).1 + 8 ≤ L ∧ (ls.get ⟨j, hj⟩).2 ≤ FS)
    (hdisj : List.Pairwise SlotDisj ls) :
    ∀ (fuel i : Nat) (buf : List Nat),
      ls.length ≤ i + fuel →
      buf.length = FS →
      rLE 2 buf 10 = ls.length →
      rLE 4 buf 24 = FS →
      (∀ j (hj : j < ls.length), rLE 4 buf (L + 8 * j) = (ls.get ⟨j, hj⟩).1 ∧
        rLE 4 buf (L + 8 * j + 4) = (ls.get ⟨j, hj⟩).2) →
      ∃ out, linkLoop base L fuel i buf = .ok out ∧
        out.length = FS ∧
        (∀ k, (∀ j (hj : j < ls.length), i ≤ j →
            k < (ls.get ⟨j, hj⟩).1 ∨ (ls.get ⟨j, hj⟩).1 + 8 ≤ k) →
          out.getD k 0 = buf.getD k 0) ∧
        (∀ j (hj : j < ls.length), i ≤ j →
          rLE 8 out (ls.get ⟨j, hj⟩).1 = (base + (ls.get ⟨j, hj⟩).2) % 2 ^ 64)
  | 0, i, buf, hfuel, hblen, hcnt, hfs, htbl => by
    refine ⟨buf, by rw [linkLoop], hblen, fun k _ => rfl, fun j hj hij => ?_⟩
    omega
  | fuel + 1, i, buf, hfuel, hblen, hcnt, hfs, htbl => by
    by_cases hc : i < ls.length
    · have hi : i < ls.length := hc
      obtain ⟨ho28, hoL, hdF⟩ := hlk i hi
      obtain ⟨hto, htd⟩ := htbl i hi
      set o := (ls.get ⟨i, hi⟩).1 with ho_def
      set d := (ls.get ⟨i, hi⟩).2 with hd_def
      have hoF : ¬ o > FS := by omega
      have hdF2 : ¬ d > FS := by omega
      have hstep : linkLoop base L (fuel + 1) i buf =
          linkLoop base L fuel (i + 1) (wLE 8 buf o (base + d)) := by
        rw [linkLoop, if_pos (by rw [hcnt]; exact hc), hto, htd, hfs,
          if_neg hoF, if_neg hdF2]
      set buf2 := wLE 8 buf o (base + d) with hbuf2
      have hblen2 : buf2.length = FS := by rw [hbuf2, length_wLE, hblen]
      have hcnt2 : rLE 2 buf2 10 = ls.length := by
        rw [hbuf2, rLE_wLE_out 2 8 buf o (base + d) 10 (by omega), hcnt]
      have hfs2 : rLE 4 buf2 24 = FS := by
        rw [hbuf2, rLE_wLE_out 4 8 buf o (base + d) 24 (by omega), hfs]
      have htbl2 : ∀ j (hj : j < ls.length), rLE 4 buf2 (L + 8 * j) = (ls.get ⟨j, hj⟩).1 ∧
          rLE 4 buf2 (L + 8 * j + 4) = (ls.get ⟨j, hj⟩).2 := by
        intro j hj
        constructor
        · rw [hbuf2, rLE_wLE_out 4 8 buf o (base + d) (L + 8 * j) (by omega)]
          exact (htbl j hj).1
        · rw [hbuf2, rLE_wLE_out 4 8 buf o (base + d) (L + 8 * j + 4) (by omega)]
          exact (htbl j hj).2
      obtain ⟨out, hout, hlen2, hagree2, hslots2⟩ :=
        linkLoop_spec base L FS ls hLFS hn hlk hdisj fuel (i + 1) buf2
          (by omega) hblen2 hcnt2 hfs2 htbl2
      refine ⟨out, by rw [hstep, hout], hlen2, ?_, ?_⟩
      · intro k hk
        have h1 : out.getD k 0 = buf2.getD k 0 :=
          hagree2 k (fun j hj hij => hk j hj (by omega))
        have h2 : buf2.getD k 0 = buf.getD k 0 := by
          rw [hbuf2]
          exact getD_wLE_out 8 buf o (base + d) k (hk i hi (le_refl i))
        rw [h1, h2]
      · intro j hj hij
        rcases Nat.eq_or_lt_of_le hij with he | hlt
        · have hjl : (⟨j, hj⟩ : Fin ls.length) = ⟨i, hi⟩ := by
            apply Fin.ext
            show j = i
            omega
          rw [hjl]
          have hagree_slot : ∀ k, k < 8 → out.getD (o + k) 0 = buf2.getD (o + k) 0 := by
            intro k hk8
            refine hagree2 (o + k) (fun j2 hj2 hij2 => ?_)
            have hd2 := List.pairwise_iff_get.mp hdisj ⟨i, hi⟩ ⟨j2, hj2⟩ (by
              simp only [Fin.mk_lt_mk]
              omega)
            rcases hd2 with hd2 | hd2
            · left
              omega
            · right
              omega
          have hre : rLE 8 out o = rLE 8 buf2 o := by
            refine rLE_congr 8 out o buf2 o (fun k hk8 => hagree_slot k hk8)
          rw [hre, hbuf2, rLE_wLE 8 buf o (base + d) (by omega), pow256_eight]
        · exact hslots2 j hj hlt
    · have hexit : linkLoop base L (fuel + 1) i buf = .ok buf := by
        rw [linkLoop, if_neg (by rw [hcnt]; exact hc)]
      refine ⟨buf, hexit, hblen, fun k _ => rfl, fun j hj hij => ?_⟩
      omega

theorem build_ok_cap {st stb : DBFileBuilder} (h1 : st.linked = false)
    (hcap : st.data.length ≤ INT32MAX) (hb : build st = .ok stb ()) :
    st.data.length + 8 * st.links.length ≤ INT32MAX := by
  by_cases hc : st.data.length + 8 * st.links.length > INT32MAX
  · exfalso
    cases hl : st.links with
    | nil =>
      rw [hl] at hc
      simp at hc
      omega
    | cons a as =>
      have he : st.links.isEmpty = false := by rw [hl]; rfl
      simp only [build, h1, he, Bool.false_eq_true, if_false] at hb
      rw [if_pos hc] at hb
      exact BRes.noConfusion hb
  · omega

set_option maxHeartbeats 2000000 in
/-- The core of the round-trip: reading a buffer finalized from payload
`d0` and link list `ls` succeeds, preserves every byte outside the origin
slots and resolves each slot, provided the links lie in the payload region,
number below `2^16` and have pairwise disjoint slots. -/
theorem built_roundtrip (base : Nat) (d0 : List Nat) (ls : List (Nat × Nat))
    (hstart : rLE 4 d0 16 = BUILDER_SIZE)
    (hlen : BUILDER_SIZE ≤ d0.length)
    (hcap : d0.length + 8 * ls.length ≤ INT32MAX)
    (hcount : ls.length < 2 ^ 16)
    (hdisj : List.Pairwise SlotDisj ls)
    (hlks : ∀ l ∈ ls, BUILDER_SIZE ≤ l.1 ∧ l.1 + 8 ≤ d0.length ∧ l.2 ≤ d0.length) :
    ∃ out,
      validateAndLink (writeHeader (d0 ++ table ls) d0.length ls.length
          (d0.length - BUILDER_SIZE) (d0.length + 8 * ls.length)) base
          (d0.length + 8 * ls.length) = .ok out ∧
      out.length = d0.length + 8 * ls.length ∧
      (∀ k, (∀ l ∈ ls, k < l.1 ∨ l.1 + 8 ≤ k) →
        out.getD k 0 = (writeHeader (d0 ++ table ls) d0.length ls.length
          (d0.length - BUILDER_SIZE) (d0.length + 8 * ls.length)).getD k 0) ∧
      (∀ l ∈ ls, rLE 8 out l.1 = (base + l.2) % 2 ^ 64) := by
  have hB : BUILDER_SIZE = 112 := rfl
  have hi32 : INT32MAX = 2147483647 := rfl
  set L := d0.length with hL
  set n := ls.length with hn
  set FS := L + 8 * n with hFS
  set B0 := d0 ++ table ls with hB0
  set D := writeHeader B0 L n (L - BUILDER_SIZE) FS with hD
  rw [hB] at hlen
  rw [hi32] at hcap
  have hB0len : B0.length = FS := by
    rw [hB0, List.length_append, length_table, hFS, hL, hn]
  have h28 : 28 ≤ B0.length := by
    rw [hB0len]
    omega
  have hDlen : D.length = FS := by
    rw [hD, length_writeHeader, hB0len]
  have hmag : rLE 8 D 0 = MAGIC := by
    rw [hD]
    exact writeHeader_magic _ _ _ _ _ h28
  have hver : D.getD 8 0 = 16 := by
    rw [hD]
    exact writeHeader_version _ _ _ _ _ h28
  have hcnt : rLE 2 D 10 = n := by
    rw [hD, writeHeader_count _ _ _ _ _ h28]
    exact Nat.mod_eq_of_lt hcount
  have hlto : rLE 4 D 12 = L := by
    rw [hD, writeHeader_lto _ _ _ _ _ h28]
    exact Nat.mod_eq_of_lt (by omega)
  have hst : rLE 4 D 16 = 112 := by
    rw [hD, writeHeader_start, hB0, rLE_append_left 4 d0 (table ls) 16 (by omega),
      hstart, hB]
  have hfs : rLE 4 D 24 = FS := by
    rw [hD, writeHeader_fs _ _ _ _ _ h28]
    exact Nat.mod_eq_of_lt (by omega)
  have htbl : ∀ j (hj : j < ls.length), rLE 4 D (L + 8 * j) = (ls.get ⟨j, hj⟩).1 ∧
      rLE 4 D (L + 8 * j + 4) = (ls.get ⟨j, hj⟩).2 := by
    intro j hj
    obtain ⟨hl1, hl2, hl3⟩ := hlks _ (List.get_mem ls j hj)
    rw [hB] at hl1
    have idx1 : L + 8 * j - d0.length = 8 * j := by omega
    have e1 : rLE 4 D (L + 8 * j) = rLE 4 (table ls) (8 * j) := by
      rw [hD, rLE_writeHeader_ge 4 B0 L n (L - BUILDER_SIZE) FS (L + 8 * j) (by omega),
        hB0, rLE_append_right 4 d0 (table ls) (L + 8 * j) (by omega), idx1]
    have idx2 : L + 8 * j + 4 - d0.length = 8 * j + 4 := by omega
    have e2 : rLE 4 D (L + 8 * j + 4) = rLE 4 (table ls) (8 * j + 4) := by
      rw [hD, rLE_writeHeader_ge 4 B0 L n (L - BUILDER_SIZE) FS (L + 8 * j + 4) (by omega),
        hB0, rLE_append_right 4 d0 (table ls) (L + 8 * j + 4) (by omega), idx2]
    obtain ⟨t1, t2⟩ := rLE_table ls j hj
    constructor
    · rw [e1, t1]
      exact Nat.mod_eq_of_lt (by omega)
    · rw [e2, t2]
      exact Nat.mod_eq_of_lt (by omega)
  have hlk2 : ∀ j (hj : j < ls.length), 28 ≤ (ls.get ⟨j, hj⟩).1 ∧
      (ls.get ⟨j, hj⟩).1 + 8 ≤ L ∧ (ls.get ⟨j, hj⟩).2 ≤ FS := by
    intro j hj
    obtain ⟨hl1, hl2, hl3⟩ := hlks _ (List.get_mem ls j hj)
    rw [hB] at hl1
    exact ⟨by omega, hl2, by omega⟩
  obtain ⟨out, hout, holen, hagree, hslots⟩ :=
    linkLoop_spec base L FS ls (by omega) hcount hlk2 hdisj (2 ^ 16) 0 D
      (by omega) hDlen hcnt hfs htbl
  have hMIN : MIN_VERSION = 16 := rfl
  have hLNK : LINKING = 16 := rfl
  have c1 : ¬ (FS ≠ 0 ∧ FS < 32) := by omega
  have c2 : ¬ (rLE 8 D 0 ≠ MAGIC) := by
    rw [hmag]
    exact fun h => h rfl
  have c3 : ¬ (D.getD 8 0 < MIN_VERSION) := by
    rw [hver, hMIN]
    omega
  have c4 : ¬ (FS ≠ 0 ∧ rLE 4 D 24 > FS) := by
    rw [hfs]
    omega
  have c5 : ¬ (rLE 4 D 16 > rLE 4 D 24) := by
    rw [hst, hfs]
    omega
  have c6 : D.getD 8 0 ≥ LINKING := by
    rw [hver, hLNK]
  have hval : validateAndLink D base FS = linkLoop base L (2 ^ 16) 0 D := by
    rw [validateAndLink, if_neg c1, if_neg c2, if_neg c3, if_neg c4, if_neg c5,
      if_pos c6, hlto]
  refine ⟨out, by rw [hval, hout], by rw [holen], ?_, ?_⟩
  · intro k hk
    refine hagree k (fun j hj hij => ?_)
    exact hk _ (List.get_mem ls j hj)
  · intro l hl
    obtain ⟨⟨j, hj⟩, he⟩ := List.mem_iff_get.mp hl
    have hs := hslots j hj (Nat.zero_le j)
    rw [he] at hs
    exact hs

/-- C1 (amended): for every builder session whose blocks and links satisfy
the build-time bounds, with fewer than `2^16` links and pairwise disjoint
8-byte origin slots, loading the finalized buffer with the reader succeeds,
leaves every byte outside the resolved link slots identical to what the
builder wrote, and overwrites the 8-byte slot at each link's origin with
`(base_address + destination) % 2^64`. -/
theorem C1_roundtrip (ops : List Op) (st stb : DBFileBuilder) (base : Nat)
    (hrun : runSession newBuilder ops = some st)
    (hcount : st.links.length < 2 ^ 16)
    (hdisj : List.Pairwise SlotDisj st.links)
    (hbuild : build st = .ok stb ()) :
    ∃ out, validateAndLink stb.data base stb.data.length = .ok out ∧
      out.length = stb.data.length ∧
      (∀ k, (∀ l ∈ st.links, k < l.1 ∨ l.1 + 8 ≤ k) →
        out.getD k 0 = stb.data.getD k 0) ∧
      (∀ l ∈ st.links, rLE 8 out l.1 = (base + l.2) % 2 ^ 64) := by
  have hw : WFB st := runSession_wf ops newBuilder st hrun wf_newBuilder
  have hcap2 := build_ok_cap hw.linked hw.cap hbuild
  have hstb : stb = { st with
      linked := true
      data := writeHeader (st.data ++ table st.links) st.data.length st.links.length
        (st.data.length - BUILDER_SIZE) (st.data.length + 8 * st.links.length) } := by
    rw [build_eq st hw.linked (wfb_start hw) hw.lenR hcap2] at hbuild
    cases hbuild
    rfl
  have hdata : stb.data = writeHeader (st.data ++ table st.links) st.data.length
      st.links.length (st.data.length - BUILDER_SIZE)
      (st.data.length + 8 * st.links.length) := by
    rw [hstb]
  have hdlen : stb.data.length = st.data.length + 8 * st.links.length := by
    rw [hdata, length_writeHeader, List.length_append, length_table]
  rw [hdlen, hdata]
  exact built_roundtrip base st.data st.links (wfb_start hw) hw.lenR hcap2 hcount hdisj
    hw.links

theorem createLink_self (st : DBFileBuilder) (h : 8 ≤ getBlockSize st BUILDER_SIZE) :
    createLink st BUILDER_SIZE 0 BUILDER_SIZE 0 =
      .ok { st with
            linked := false
            links := st.links ++ [(BUILDER_SIZE, BUILDER_SIZE)] } () := by
  have hg2 : ∀ x, getBlockSize (assertNotLinked st) x = getBlockSize st x := fun _ => rfl
  have hc : ¬ ((0 + 8) % 2 ^ 32 > getBlockSize st BUILDER_SIZE ∨
      0 > getBlockSize st BUILDER_SIZE) := by
    have e : (0 + 8) % 2 ^ 32 = 8 := by norm_num
    rw [e]
    omega
  have e2 : (BUILDER_SIZE + 0) % 2 ^ 32 = BUILDER_SIZE := by decide
  simp only [createLink, hg2]
  rw [if_neg hc, e2]
  rfl

theorem repeatLink_spec (k : Nat) : ∀ st : DBFileBuilder,
    st.linked = false → 8 ≤ getBlockSize st BUILDER_SIZE →
    repeatLink k st = { st with
      links := st.links ++ List.replicate k (BUILDER_SIZE, BUILDER_SIZE) } := by
  induction k with
  | zero =>
    intro st hl hg
    rw [repeatLink]
    show st = { st with links := st.links ++ [] }
    rw [List.append_nil]
  | succ k ih =>
    intro st hl hg
    rw [repeatLink, createLink_self st hg]
    simp only [BRes.state]
    rw [ih { st with linked := false, links := st.links ++ [(BUILDER_SIZE, BUILDER_SIZE)] } rfl hg]
    obtain ⟨lk, dt, bl, ln⟩ := st
    have hl2 : lk = false := hl
    subst hl2
    simp [List.replicate_succ, List.append_assoc]

/-- C3 (code bug): compiled without `DEBUG` — the default build — the
builder accepts `CreateBlock` after a successful `Build`: `AssertNotLinked`
resets the finalized flag instead of failing, and the block is appended to
the already-finalized buffer (here growing it from 112 to 113 bytes),
desynchronizing the committed header from the buffer, where the claim
requires the call to be rejected. -/
theorem C3_bug :
    (build newBuilder).isOk = true ∧
    c6st1.linked = true ∧
    (createBlockZ c6st1 1).isOk = true ∧
    ((createBlockZ c6st1 1).state).linked = false ∧
    ((createBlockZ c6st1 1).state).data.length = c6st1.data.length + 1 := by decide

/-- C4 counterexample: on a 16-byte block at id 112, `CreateLink` with
origin offset `2^32 - 8` succeeds — the 32-bit sum `origin + 8` wraps to 0,
defeating the bound check although `originOffset + 8 > size(originBlock)` —
and records the wrapped origin 104. -/
theorem C4_cex :
    (createLink ((createBlockZ newBuilder 16).state) 112 (2 ^ 32 - 8) 112 0).isOk = true ∧
    ((createLink ((createBlockZ newBuilder 16).state) 112 (2 ^ 32 - 8) 112 0).state).links =
      [(104, 112)] ∧
    2 ^ 32 - 8 + 8 > getBlockSize ((createBlockZ newBuilder 16).state) 112 := by decide

/-- C4 (amended): for parameters in the `uint32_t` range, `CreateLink`
fails — recording no link — iff `(originOffset + 8) mod 2^32` exceeds the
origin block's recorded size or `destOffset` exceeds the destination
block's recorded size; otherwise it records exactly the pair of 32-bit
truncated absolute offsets.  The origin bound is computed in wrapping
32-bit arithmetic, not over the integers as the claim stated. -/
theorem C4_bounds (st : DBFileBuilder) (bo oo bd dof : Nat)
    (h1 : oo < 2 ^ 32) (h2 : dof < 2 ^ 32) :
    ((oo + 8) % 2 ^ 32 > getBlockSize st bo ∨ dof > getBlockSize st bd →
      createLink st bo oo bd dof =
        .err { st with linked := false } "trying to create a link after the end of a block") ∧
    (¬ ((oo + 8) % 2 ^ 32 > getBlockSize st bo ∨ dof > getBlockSize st bd) →
      createLink st bo oo bd dof = .ok { st with
        linked := false
        links := st.links ++ [((bo + oo) % 2 ^ 32, (bd + dof) % 2 ^ 32)] } ()) := by
  have hg : ∀ x, getBlockSize (assertNotLinked st) x = getBlockSize st x := fun _ => rfl
  constructor
  · intro hc
    simp only [createLink, hg]
    rw [if_pos hc]
    rfl
  · intro hc
    simp only [createLink, hg]
    rw [if_neg hc]
    rfl

/-- Witness for `C4_bounds` at a fresh builder and block id 0 (unknown, so
its size is 0 and the call fails). -/
theorem C4_bounds_witness :
    ((0 : Nat) < 2 ^ 32 ∧ (0 : Nat) < 2 ^ 32) ∧
    (((0 + 8) % 2 ^ 32 > getBlockSize newBuilder 0 ∨ 0 > getBlockSize newBuilder 0 →
      createLink newBuilder 0 0 0 0 =
        .err { newBuilder with linked := false }
          "trying to create a link after the end of a block") ∧
    (¬ ((0 + 8) % 2 ^ 32 > getBlockSize newBuilder 0 ∨ 0 > getBlockSize newBuilder 0) →
      createLink newBuilder 0 0 0 0 = .ok { newBuilder with
        linked := false
        links := newBuilder.links ++ [((0 + 0) % 2 ^ 32, (0 + 0) % 2 ^ 32)] } ())) :=
  ⟨⟨by decide, by decide⟩, C4_bounds newBuilder 0 0 0 0 (by decide) (by decide)⟩

/-- C7 (code bug): the constructor reserves `sizeof(DBFileBuilder)` — 112
bytes on the reference LP64 platform, the size of the builder object
itself — rather than the 28-byte serialized `DB_FILE` header, so
`start_offset` is 112 and the first `CreateBlock` returns BlockId 112,
not 28 as the claim (and the spec's file-layout table) prescribe. -/
theorem C7_bug :
    rLE 4 newBuilder.data 16 = BUILDER_SIZE ∧
    newBuilder.data.length = BUILDER_SIZE ∧
    (createBlockZ newBuilder 4).retVal = 112 ∧
    BUILDER_SIZE ≠ 28 := by decide

/-- C8 (code bug): the reader's "file too small" threshold evaluates to
`offsetof(DB_FILE, file_size) + sizeof(sizeof(file->file_size))` =
24 + sizeof(size_t) = 32 bytes — the inner `sizeof` is taken of a `size_t`,
a slip for `sizeof(file->file_size)` = 4 — so the complete valid 28-byte
header `c8buf` is rejected at its exact length 28 (and at 31), while the
claim prescribes acceptance of every length at least 24 + 4 = 28. -/
theorem C8_bug :
    validateAndLink c8buf 0 28 = .err c8buf "invalid file: file too small" ∧
    (validateAndLink c8buf 0 31).isOk = false ∧
    (validateAndLink c8buf 0 32).isOk = true ∧
    24 + 4 = 28 := by decide

/-- C9: on any builder state, a `CreateBlock` call (either variant, with a
nonzero length) that would push the buffer past `INT32_MAX` bytes throws
"file too big" leaving the buffer, block map and link list unchanged (only
the `linked` flag is reset, as `AssertNotLinked` always does); and a
`Build` on a not-yet-finalized builder whose appended link table — present
only when links exist — would push the buffer past `INT32_MAX` likewise
throws before inserting, with only the `linked` flag set.  In every case
nothing is recorded, so no recorded offset wraps.  Each conclusion carries
only its own conditions. -/
theorem C9_guard (st : DBFileBuilder) (bs : List Nat) (n : Nat) :
    (bs.length ≠ 0 → st.data.length + bs.length > INT32MAX →
      createBlock st bs = .err { st with linked := false } "file too big") ∧
    (n ≠ 0 → st.data.length + n > INT32MAX →
      createBlockZ st n = .err { st with linked := false } "file too big") ∧
    (st.linked = false → st.links ≠ [] →
      st.data.length + 8 * st.links.length > INT32MAX →
      build st = .err { st with linked := true } "file too big") := by
  refine ⟨?_, ?_, ?_⟩
  · intro hb h1
    simp only [createBlock, assertNotLinked]
    rw [if_pos hb, if_pos h1]
  · intro hn h2
    simp only [createBlockZ, assertNotLinked]
    rw [if_pos hn, if_pos h2]
  · intro hlf hle h3
    have hef : st.links.isEmpty = false := by
      cases hsl : st.links with
      | nil => exact absurd hsl hle
      | cons a as => rfl
    simp only [build, hlf, Bool.false_eq_true, if_false, hef]
    rw [if_pos h3]

/-- Witness for `C9_guard` on a builder whose buffer already holds
`INT32_MAX` bytes, discharging each conclusion's conditions separately. -/
theorem C9_guard_witness :
    createBlock c9st [0] = .err { c9st with linked := false } "file too big" ∧
    createBlockZ c9st 1 = .err { c9st with linked := false } "file too big" ∧
    build c9st = .err { c9st with linked := true } "file too big" := by
  have hlen : c9st.data.length = INT32MAX := by
    show (List.replicate INT32MAX 0).length = INT32MAX
    exact List.length_replicate INT32MAX 0
  have hh1 : c9st.data.length + ([0] : List Nat).length > INT32MAX := by
    rw [hlen]
    show INT32MAX + 1 > INT32MAX
    omega
  have hh2 : c9st.data.length + 1 > INT32MAX := by
    rw [hlen]
    omega
  have hh3 : c9st.data.length + 8 * c9st.links.length > INT32MAX := by
    rw [hlen]
    show INT32MAX + 8 * 1 > INT32MAX
    omega
  exact ⟨(C9_guard c9st [0] 1).1 (by decide) hh1,
    (C9_guard c9st [0] 1).2.1 (by decide) hh2,
    (C9_guard c9st [0] 1).2.2 rfl (fun hh => List.noConfusion hh) hh3⟩

/-- C2: a buffer with a corrupted magic, or a version below
`MIN_SUPPORTED_VERSION`, or a `file_size` field exceeding the supplied
nonzero length, fails reader validation with an error that carries the
buffer completely unmodified; moreover, whenever the earlier checks pass,
the error is exactly the one corresponding to the offending condition. -/
theorem C2_reject (buf : List Nat) (base len : Nat)
    (h : rLE 8 buf 0 ≠ MAGIC ∨ buf.getD 8 0 < MIN_VERSION ∨
      (len ≠ 0 ∧ rLE 4 buf 24 > len)) :
    (∃ msg, validateAndLink buf base len = .err buf msg) ∧
    ((len = 0 ∨ 32 ≤ len) → rLE 8 buf 0 ≠ MAGIC →
      validateAndLink buf base len = .err buf "invalid file: bad magic") ∧
    ((len = 0 ∨ 32 ≤ len) → rLE 8 buf 0 = MAGIC → buf.getD 8 0 < MIN_VERSION →
      validateAndLink buf base len = .err buf "invalid file: version too low") ∧
    ((len = 0 ∨ 32 ≤ len) → rLE 8 buf 0 = MAGIC → ¬ buf.getD 8 0 < MIN_VERSION →
      len ≠ 0 → rLE 4 buf 24 > len →
      validateAndLink buf base len = .err buf "invalid file: read file too small") := by
  by_cases hsm : len ≠ 0 ∧ len < 32
  · refine ⟨⟨_, by rw [validateAndLink, if_pos hsm]⟩,
      fun hlen => (by omega : False).elim,
      fun hlen => (by omega : False).elim,
      fun hlen => (by omega : False).elim⟩
  · by_cases hm : rLE 8 buf 0 ≠ MAGIC
    · have he : validateAndLink buf base len = .err buf "invalid file: bad magic" := by
        rw [validateAndLink, if_neg hsm, if_pos hm]
      exact ⟨⟨_, he⟩, fun _ _ => he, fun _ hmm _ => absurd hmm hm,
        fun _ hmm _ _ _ => absurd hmm hm⟩
    · have hm2 : rLE 8 buf 0 = MAGIC := not_not.mp hm
      by_cases hv : buf.getD 8 0 < MIN_VERSION
      · have he : validateAndLink buf base len =
            .err buf "invalid file: version too low" := by
          rw [validateAndLink, if_neg hsm, if_neg hm, if_pos hv]
        exact ⟨⟨_, he⟩, fun _ hmm => absurd hm2 hmm, fun _ _ _ => he,
          fun _ _ hvv _ _ => absurd hv hvv⟩
      · by_cases hf : len ≠ 0 ∧ rLE 4 buf 24 > len
        · have he : validateAndLink buf base len =
              .err buf "invalid file: read file too small" := by
            rw [validateAndLink, if_neg hsm, if_neg hm, if_neg hv, if_pos hf]
          exact ⟨⟨_, he⟩, fun _ hmm => absurd hm2 hmm, fun _ _ hvv => absurd hvv hv,
            fun _ _ _ _ _ => he⟩
        · exfalso
          rcases h with h | h | h
          · exact hm h
          · exact hv h
          · exact hf h

/-- Witness for `C2_reject`: a 40-byte all-zero buffer, whose magic field
reads 0. -/
theorem C2_reject_witness :
    (rLE 8 c2buf 0 ≠ MAGIC ∨ c2buf.getD 8 0 < MIN_VERSION ∨
      ((40 : Nat) ≠ 0 ∧ rLE 4 c2buf 24 > 40)) ∧
    ((∃ msg, validateAndLink c2buf 0 40 = .err c2buf msg) ∧
    ((40 = 0 ∨ 32 ≤ 40) → rLE 8 c2buf 0 ≠ MAGIC →
      validateAndLink c2buf 0 40 = .err c2buf "invalid file: bad magic") ∧
    ((40 = 0 ∨ 32 ≤ 40) → rLE 8 c2buf 0 = MAGIC → c2buf.getD 8 0 < MIN_VERSION →
      validateAndLink c2buf 0 40 = .err c2buf "invalid file: version too low") ∧
    ((40 = 0 ∨ 32 ≤ 40) → rLE 8 c2buf 0 = MAGIC → ¬ c2buf.getD 8 0 < MIN_VERSION →
      (40 : Nat) ≠ 0 → rLE 4 c2buf 24 > 40 →
      validateAndLink c2buf 0 40 = .err c2buf "invalid file: read file too small")) :=
  ⟨by decide, C2_reject c2buf 0 40 (by decide)⟩

/-- C5 counterexample: the crafted buffer `c5buf` passes every validation
step, yet resolving its single link record (origin 36 = file_size) writes
the 8 bytes at offsets 36..43 — at and beyond the declared `file_size` of
36 — so not every written byte lies within the first `file_size` bytes. -/
theorem C5_cex :
    validateAndLink c5buf 1 0 = .ok c5out ∧
    rLE 4 c5buf 24 = 36 ∧
    c5out.getD 36 0 ≠ c5buf.getD 36 0 := by decide

/-- C5 (amended): validation checks each link's origin and destination only
against the 32-bit `file_size` field and then writes 8 bytes at the origin,
so on a byte-valued buffer every byte modified by a successful
validate-and-link pass lies below `2^32 + 7` — but not necessarily within
`file_size`: the write may extend up to 7 bytes past it, and the link-table
read range at `links_table_offset` is never bounds-checked at all. -/
theorem C5_write_bound (buf : List Nat) (base len : Nat) (out : List Nat)
    (hb : Bytes buf) (h : validateAndLink buf base len = .ok out) :
    ∀ k, out.getD k 0 ≠ buf.getD k 0 → k < 2 ^ 32 + 7 := by
  intro k hk
  rw [validateAndLink] at h
  by_cases h1 : len ≠ 0 ∧ len < 32
  · rw [if_pos h1] at h
    exact RRes.noConfusion h
  · rw [if_neg h1] at h
    by_cases h2 : rLE 8 buf 0 ≠ MAGIC
    · rw [if_pos h2] at h
      exact RRes.noConfusion h
    · rw [if_neg h2] at h
      by_cases h3 : buf.getD 8 0 < MIN_VERSION
      · rw [if_pos h3] at h
        exact RRes.noConfusion h
      · rw [if_neg h3] at h
        by_cases h4 : len ≠ 0 ∧ rLE 4 buf 24 > len
        · rw [if_pos h4] at h
          exact RRes.noConfusion h
        · rw [if_neg h4] at h
          by_cases h5 : rLE 4 buf 16 > rLE 4 buf 24
          · rw [if_pos h5] at h
            exact RRes.noConfusion h
          · rw [if_neg h5] at h
            by_cases h6 : buf.getD 8 0 ≥ LINKING
            · rw [if_pos h6] at h
              exact linkLoop_writes_bound (2 ^ 16) 0 buf out hb h k hk
            · rw [if_neg h6] at h
              cases h
              exact absurd rfl hk

/-- Witness for `C5_write_bound` at `c5buf`: the pass succeeds, changes the
byte at offset 36, and 36 is below the bound. -/
theorem C5_write_bound_witness :
    Bytes c5buf ∧ validateAndLink c5buf 1 0 = .ok c5out ∧
    c5out.getD 36 0 ≠ c5buf.getD 36 0 ∧ 36 < 2 ^ 32 + 7 :=
  ⟨by decide, by decide, by decide,
    C5_write_bound c5buf 1 0 c5out (by decide) (by decide) 36 (by decide)⟩

/-- C6: `Build` is idempotent — after a successful `Build` produced state
`st1`, a second `Build` returns the very same state, hence a header with
identical magic, version, links_table_offset, links_count, data_size and
file_size fields, and an unchanged buffer length. -/
theorem C6_idempotent (st st1 : DBFileBuilder) (h : build st = .ok st1 ()) :
    build st1 = .ok st1 () ∧
    readHeader ((build st1).state).data = readHeader st1.data ∧
    ((build st1).state).data.length = st1.data.length := by
  have hl : st1.linked = true := by
    by_cases h0 : st.linked = true
    · rw [build, if_pos h0] at h
      cases h
      exact h0
    · have h0f : st.linked = false := by
        cases hsl : st.linked
        · rfl
        · exact absurd hsl h0
      by_cases he : st.links.isEmpty = true
      · simp only [build, h0f, Bool.false_eq_true, if_false, he, if_true] at h
        cases h
        rfl
      · have hef : st.links.isEmpty = false := by
          cases hse : st.links.isEmpty
          · rfl
          · exact absurd hse he
        by_cases hc : st.data.length + 8 * st.links.length > INT32MAX
        · simp only [build, h0f, Bool.false_eq_true, if_false, hef] at h
          rw [if_pos hc] at h
          exact BRes.noConfusion h
        · simp only [build, h0f, Bool.false_eq_true, if_false, hef] at h
          rw [if_neg hc] at h
          cases h
          rfl
  have h2 : build st1 = .ok st1 () := by
    rw [build, if_pos hl]
  exact ⟨h2, by rw [h2]; rfl, by rw [h2]; rfl⟩

/-- Witness for `C6_idempotent`: a fresh builder finalized once. -/
theorem C6_idempotent_witness :
    build newBuilder = .ok c6st1 () ∧
    (build c6st1 = .ok c6st1 () ∧
      readHeader ((build c6st1).state).data = readHeader c6st1.data ∧
      ((build c6st1).state).data.length = c6st1.data.length) :=
  ⟨by decide, C6_idempotent newBuilder c6st1 (by decide)⟩

/-- C1 counterexample: in session `c1ops` two links share the same origin
slot (origin 112).  The reader succeeds, but the slot at the first link's
origin ends up holding `base + 128` — the second link's resolution — not
`base + destination = 0 + 112` as the claim demands for the link
`(112, 112)` (base address 0 here). -/
theorem C1_cex :
    runSession newBuilder c1ops = some c1st ∧
    build c1st = .ok c1stb () ∧
    validateAndLink c1stb.data 0 c1stb.data.length = .ok c1out ∧
    (112, 112) ∈ c1st.links ∧
    rLE 8 c1out 112 ≠ (0 + 112) % 2 ^ 64 := by decide

/-- Witness for `C1_roundtrip`: a session with two blocks and one link,
loaded at base address 5. -/
theorem C1_roundtrip_witness :
    (runSession newBuilder c1wops = some c1wst ∧
      c1wst.links.length < 2 ^ 16 ∧
      List.Pairwise SlotDisj c1wst.links ∧
      build c1wst = .ok c1wstb ()) ∧
    (∃ out, validateAndLink c1wstb.data 5 c1wstb.data.length = .ok out ∧
      out.length = c1wstb.data.length ∧
      (∀ k, (∀ l ∈ c1wst.links, k < l.1 ∨ l.1 + 8 ≤ k) →
        out.getD k 0 = c1wstb.data.getD k 0) ∧
      (∀ l ∈ c1wst.links, rLE 8 out l.1 = (5 + l.2) % 2 ^ 64)) :=
  ⟨⟨by decide, by decide, by decide, by decide⟩,
    C1_roundtrip c1wops c1wst c1wstb 5 (by decide) (by decide) (by decide) (by decide)⟩

/-- C10 counterexample: after 65536 `CreateLink` calls the builder holds
65536 link records and `Build` succeeds, but the 2-byte `links_count`
header field reads back `65536 % 2^16 = 0`, not the number of links
created. -/
theorem C10_cex :
    c10st.links.length = 65536 ∧
    ∃ stb, build c10st = .ok stb () ∧
      (readHeader stb.data).links_count = 0 ∧
      (readHeader stb.data).links_count ≠ c10st.links.length := by
  have hbase1 : c10base.linked = false := by decide
  have hbase2 : 8 ≤ getBlockSize c10base BUILDER_SIZE := by decide
  have hbl : c10base.links = [] := by decide
  have hc10 : c10st = { c10base with
      links := List.replicate 65536 (BUILDER_SIZE, BUILDER_SIZE) } := by
    show repeatLink 65536 c10base = _
    rw [repeatLink_spec 65536 c10base hbase1 hbase2, hbl, List.nil_append]
  rw [hc10]
  set R : DBFileBuilder :=
    { c10base with links := List.replicate 65536 (BUILDER_SIZE, BUILDER_SIZE) } with hR
  have h1 : R.linked = false := hbase1
  have h2 : rLE 4 R.data 16 = BUILDER_SIZE := by
    have hp : rLE 4 c10base.data 16 = BUILDER_SIZE := by decide
    exact hp
  have h3 : BUILDER_SIZE ≤ R.data.length := by
    have hp : BUILDER_SIZE ≤ c10base.data.length := by decide
    exact hp
  have hdlen : R.data.length = 128 := by
    have hp : c10base.data.length = 128 := by decide
    exact hp
  have hRlinks : R.links = List.replicate 65536 (BUILDER_SIZE, BUILDER_SIZE) := by
    rw [hR]
  have hlen : R.links.length = 65536 := by
    rw [hRlinks, List.length_replicate]
  have h4 : R.data.length + 8 * R.links.length ≤ INT32MAX := by
    rw [hlen, hdlen]
    decide
  have hb := build_eq R h1 h2 h3 h4
  have h28 : 28 ≤ (R.data ++ table R.links).length := by
    rw [List.length_append]
    omega
  refine ⟨hlen, _, hb, ?_, ?_⟩
  · simp only [readHeader]
    rw [writeHeader_count _ _ _ _ _ h28, hlen]
    decide
  · simp only [readHeader]
    rw [writeHeader_count _ _ _ _ _ h28, hlen]
    decide

/-- C10 (amended): after a successful `Build`, the 2-byte `links_count`
field equals the number of links created with `CreateLink` reduced modulo
`2^16` (the field truncates), and the table serialized immediately after
the data region holds every created link's origin and destination pair in
creation order. -/
theorem C10_count (st stb : DBFileBuilder)
    (h1 : st.linked = false) (h2 : rLE 4 st.data 16 = BUILDER_SIZE)
    (h3 : BUILDER_SIZE ≤ st.data.length)
    (h4 : st.data.length + 8 * st.links.length ≤ INT32MAX)
    (hb : build st = .ok stb ())
    (hv : ∀ l ∈ st.links, l.1 < 2 ^ 32 ∧ l.2 < 2 ^ 32) :
    (readHeader stb.data).links_count = st.links.length % 2 ^ 16 ∧
    ∀ j (hj : j < st.links.length),
      rLE 4 stb.data (st.data.length + 8 * j) = (st.links.get ⟨j, hj⟩).1 ∧
      rLE 4 stb.data (st.data.length + 8 * j + 4) = (st.links.get ⟨j, hj⟩).2 := by
  have hBv : BUILDER_SIZE = 112 := rfl
  have hstb : stb = { st with
      linked := true
      data := writeHeader (st.data ++ table st.links) st.data.length st.links.length
        (st.data.length - BUILDER_SIZE) (st.data.length + 8 * st.links.length) } := by
    rw [build_eq st h1 h2 h3 h4] at hb
    cases hb
    rfl
  have hdata : stb.data = writeHeader (st.data ++ table st.links) st.data.length
      st.links.length (st.data.length - BUILDER_SIZE)
      (st.data.length + 8 * st.links.length) := by
    rw [hstb]
  have hB0len : (st.data ++ table st.links).length =
      st.data.length + 8 * st.links.length := by
    rw [List.length_append, length_table]
  have h28 : 28 ≤ (st.data ++ table st.links).length := by
    rw [hB0len]
    omega
  constructor
  · rw [hdata]
    simp only [readHeader]
    rw [writeHeader_count _ _ _ _ _ h28]
  · intro j hj
    obtain ⟨hv1, hv2⟩ := hv _ (List.get_mem st.links j hj)
    have idx1 : st.data.length + 8 * j - st.data.length = 8 * j := by omega
    have idx2 : st.data.length + 8 * j + 4 - st.data.length = 8 * j + 4 := by omega
    obtain ⟨t1, t2⟩ := rLE_table st.links j hj
    constructor
    · rw [hdata, rLE_writeHeader_ge 4 (st.data ++ table st.links) st.data.length
        st.links.length (st.data.length - BUILDER_SIZE)
        (st.data.length + 8 * st.links.length) (st.data.length + 8 * j) (by omega),
        rLE_append_right 4 st.data (table st.links) (st.data.length + 8 * j) (by omega),
        idx1, t1]
      exact Nat.mod_eq_of_lt hv1
    · rw [hdata, rLE_writeHeader_ge 4 (st.data ++ table st.links) st.data.length
        st.links.length (st.data.length - BUILDER_SIZE)
        (st.data.length + 8 * st.links.length) (st.data.length + 8 * j + 4) (by omega),
        rLE_append_right 4 st.data (table st.links) (st.data.length + 8 * j + 4)
          (by omega),
        idx2, t2]
      exact Nat.mod_eq_of_lt hv2

/-- Witness for `C10_count`: a session with one 16-byte block and one
self-link. -/
theorem C10_count_witness :
    (c10wst.linked = false ∧ rLE 4 c10wst.data 16 = BUILDER_SIZE ∧
      BUILDER_SIZE ≤ c10wst.data.length ∧
      c10wst.data.length + 8 * c10wst.links.length ≤ INT32MAX ∧
      build c10wst = .ok c10wstb () ∧
      (∀ l ∈ c10wst.links, l.1 < 2 ^ 32 ∧ l.2 < 2 ^ 32)) ∧
    ((readHeader c10wstb.data).links_count = c10wst.links.length % 2 ^ 16 ∧
     ∀ j (hj : j < c10wst.links.length),
       rLE 4 c10wstb.data (c10wst.data.length + 8 * j) = (c10wst.links.get ⟨j, hj⟩).1 ∧
       rLE 4 c10wstb.data (c10wst.data.length + 8 * j + 4) = (c10wst.links.get ⟨j, hj⟩).2) :=
  ⟨⟨by decide, by decide, by decide, by decide, by decide, by decide⟩,
    C10_count c10wst c10wstb (by decide) (by decide) (by decide) (by decide) (by decide)
      (by decide)⟩

end DBF
